import Mathlib

/-
Verification of the build-orchestration core of the rclark/aws-basics
repository (toolkit/src/configuration/builder.go, builds.go and the
command package): a shallow embedding of the data model and of the
Builder operations, with external effects (process runs, pipes, and the
three credential fetches) resolved by an explicit environment and
recorded in a trace of events.
-/

set_option autoImplicit false

namespace AwsBasics

/-- Cloud credentials, mirroring aws.Credentials fields used by builder.go. -/
structure AWSCredentials where
  AccessKeyID : String
  SecretAccessKey : String
  SessionToken : String
deriving DecidableEq

/-- Build triggers from builds.go (Triggers struct). -/
structure Triggers where
  Branches : List String
  Keywords : List String
deriving DecidableEq

/-- Configuration for a Docker image build (builds.go, DockerImageConfig). -/
structure DockerImageConfig where
  DockerfilePath : String
  Context : String
  Triggers : Triggers
deriving DecidableEq

/-- Configuration for a Lambda bundle build (builds.go, LambdaBundleConfig).
Go distinguishes nil slices from empty ones for IncludePaths/ExcludePaths;
this is modelled with Option. -/
structure LambdaBundleConfig where
  Runtime : String
  BuildCommand : String
  IncludePaths : Option (List String)
  ExcludePaths : Option (List String)
  Triggers : Triggers
deriving DecidableEq

/-- The set of builds configured for a repository (builds.go, Builds). -/
structure Builds where
  DockerImages : List DockerImageConfig
  LambdaBundles : List LambdaBundleConfig
deriving DecidableEq

/-- Identification of one build run (builder.go, BuildIdentification). -/
structure BuildIdentification where
  Repository : String
  Commit : String
  Directory : String
deriving DecidableEq

/-- One external invocation (command package, Process struct). -/
structure Process where
  WorkingDirectory : String
  EnvironmentVariables : List String
  Command : String
  Arguments : List String
deriving DecidableEq

/-- Mutable state of the Builder (builder.go, Builder struct); the service
clients and the run/pipe function fields are replaced by the ExecEnv. -/
structure Builder where
  githubToken : String
  awsCreds : AWSCredentials
  awsAccountID : String
  PrimaryAWSRegion : String
deriving DecidableEq

/-- Observable external effects of a Builder operation, in order. -/
inductive Event where
  | fetchGitHubToken : Event
  | fetchAWSCreds : Event
  | fetchAWSCaller : Event
  | run (p : Process) : Event
  | pipe (src dst : Process) : Event
deriving DecidableEq

/-- The three concurrent credential fetches of loadCreds; all three are
started and waited for on every call, so they appear in every trace. -/
def credFetchEvents : List Event :=
  [Event.fetchGitHubToken, Event.fetchAWSCreds, Event.fetchAWSCaller]

/-- Whether an event is one of the three credential fetches. -/
def isCredFetch : Event → Bool
  | Event.fetchGitHubToken => true
  | Event.fetchAWSCreds => true
  | Event.fetchAWSCaller => true
  | _ => false

/-- Number of external process invocations (runs and pipes) in a trace. -/
def externalInvocations (tr : List Event) : Nat :=
  tr.countP fun ev =>
    match ev with
    | Event.run _ => true
    | Event.pipe _ _ => true
    | _ => false

/-- Environment resolving every external effect of the Builder: outcome of
each process run and pipe (none = success, some e = the error string the
injected run/pipe function returns), outcomes of the AWS Secrets Manager
read, the AWS config load, the credential retrieval and the STS caller
lookup, and a completion order for the three goroutines of the errgroup
in loadCreds. -/
structure ExecEnv where
  runResult : Process → Option String
  pipeResult : Process → Process → Option String
  secretValue : Except String String
  awsConfig : Except String Unit
  awsRetrieve : Except String AWSCredentials
  callerIdentity : Except String String
  schedule : List Nat

/-- The error of a failed computation, if any. -/
def errPart {α : Type} : Except String α → Option String
  | Except.error e => some e
  | Except.ok _ => none

/-- golang.org/x/sync/errgroup semantics of Wait for a plain Group: every
started function runs to completion, and the returned error is the first
error to occur, in goroutine completion order, or nil if none failed. -/
def errgroupWait (schedule : List Nat) (results : Nat → Option String) : Option String :=
  (schedule.filterMap results).head?

/-- builder.go loadGitHubCreds: read the token secret, wrap failure, store
the token. -/
def loadGitHubCreds (b : Builder) (env : ExecEnv) : Except String Builder :=
  match env.secretValue with
  | Except.error e =>
      Except.error ("failed to retrieve token from AWS Secrets Manager: " ++ e)
  | Except.ok t => Except.ok { b with githubToken := t }

/-- builder.go loadAWSCreds: load the default AWS config, then retrieve
credentials from it, wrapping each failure; store the credentials. -/
def loadAWSCreds (b : Builder) (env : ExecEnv) : Except String Builder :=
  match env.awsConfig with
  | Except.error e => Except.error ("failed to load AWS configuration: " ++ e)
  | Except.ok _ =>
      match env.awsRetrieve with
      | Except.error e => Except.error ("failed to acquire AWS credentials: " ++ e)
      | Except.ok c => Except.ok { b with awsCreds := c }

/-- builder.go lookupAWSCaller: STS GetCallerIdentity, wrap failure, store
the account id. -/
def lookupAWSCaller (b : Builder) (env : ExecEnv) : Except String Builder :=
  match env.callerIdentity with
  | Except.error e => Except.error ("failed to get AWS identity: " ++ e)
  | Except.ok a => Except.ok { b with awsAccountID := a }

/-- Error outcome of the i-th goroutine of loadCreds (0 = GitHub token,
1 = AWS credentials, 2 = caller identity); the error of each loader does
not depend on the builder argument. -/
def credsErrOf (b : Builder) (env : ExecEnv) : Nat → Option String
  | 0 => errPart (loadGitHubCreds b env)
  | 1 => errPart (loadAWSCreds b env)
  | 2 => errPart (lookupAWSCaller b env)
  | _ => none

/-- builder.go loadCreds result: three goroutines in an errgroup, Wait
returns the first error in completion order; on overall success all three
field updates have been applied (the three goroutines write disjoint
fields, so the concurrent result equals the sequential composition). -/
def loadCredsResult (b : Builder) (env : ExecEnv) : Except String Builder :=
  match errgroupWait env.schedule (credsErrOf b env) with
  | some e => Except.error e
  | none =>
      match loadGitHubCreds b env with
      | Except.error e => Except.error e
      | Except.ok b1 =>
          match loadAWSCreds b1 env with
          | Except.error e => Except.error e
          | Except.ok b2 => lookupAWSCaller b2 env

/-- builder.go loadCreds: all three fetches are started and waited for
regardless of failures, so the trace always holds all three events. -/
def loadCreds (b : Builder) (env : ExecEnv) : List Event × Except String Builder :=
  (credFetchEvents, loadCredsResult b env)

/-- The four environment variables injected into build commands
(builder.go DockerImage and LambdaBundle). -/
def credEnvVars (b : Builder) : List String :=
  [ "AWS_ACCESS_KEY_ID=" ++ b.awsCreds.AccessKeyID,
    "AWS_SECRET_ACCESS_KEY=" ++ b.awsCreds.SecretAccessKey,
    "AWS_SESSION_TOKEN=" ++ b.awsCreds.SessionToken,
    "GITHUB_ACCESS_TOKEN=" ++ b.githubToken ]

/-- Splitting of a character list at every character satisfying p,
keeping empty pieces; on the empty input the result is one empty piece,
matching Go strings.Split semantics. -/
def splitChars (p : Char → Bool) : List Char → List (List Char)
  | [] => [[]]
  | a :: t =>
      match splitChars p t with
      | [] => [[a]]
      | h :: r => if p a then [] :: h :: r else (a :: h) :: r

/-- Go strings.Split(s, " "): split on every single space character,
keeping empty pieces. -/
def splitOnSpace (s : String) : List String :=
  (splitChars (· == ' ') s.data).map String.mk

/-- builder.go LambdaBundle step 1: strings.Split(config.BuildCommand, " ")
(split on the single space character, keeping empty pieces, exactly as Go
strings.Split), first piece is the command, the rest are the arguments;
runs in the source directory with the credential environment variables. -/
def bundleBuildProcess (b : Builder) (id : BuildIdentification)
    (config : LambdaBundleConfig) : Process :=
  let split := splitOnSpace config.BuildCommand
  { WorkingDirectory := id.Directory
    EnvironmentVariables := credEnvVars b
    Command := split.headD ""
    Arguments := split.tail }

/-- builder.go LambdaBundle, go1.x case: zip ../<commit>.zip * from dist. -/
def goZipProcess (zipfile : String) : Process :=
  { WorkingDirectory := "dist"
    EnvironmentVariables := []
    Command := "zip"
    Arguments := ["../" ++ zipfile, "*"] }

/-- builder.go LambdaBundle, nodejs14.x case: zip <commit>.zip * with
optional include (-i ... node_modules) and exclude (-x ...) arguments. -/
def nodeZipProcess (zipfile : String) (config : LambdaBundleConfig) : Process :=
  let args := [zipfile, "*"]
  let args :=
    match config.IncludePaths with
    | some incl => args ++ ["-i"] ++ incl ++ ["node_modules"]
    | none => args
  let args :=
    match config.ExcludePaths with
    | some excl => args ++ ["-x"] ++ excl
    | none => args
  { WorkingDirectory := ""
    EnvironmentVariables := []
    Command := "zip"
    Arguments := args }

/-- builder.go LambdaBundle upload step: aws s3 cp <commit>.zip
s3://artifacts-<account>-<region>/<repository>/<commit>.zip. -/
def uploadProcess (b : Builder) (id : BuildIdentification) (zipfile : String) : Process :=
  { WorkingDirectory := ""
    EnvironmentVariables := []
    Command := "aws"
    Arguments :=
      [ "s3", "cp", zipfile,
        "s3://artifacts-" ++ b.awsAccountID ++ "-" ++ b.PrimaryAWSRegion
          ++ "/" ++ id.Repository ++ "/" ++ zipfile ] }

/-- builder.go LambdaBundle: load credentials, run the build command,
switch on the runtime (go1.x / nodejs14.x / unknown), and upload; every
step's error is wrapped with the source's message. The trace records each
external invocation in order. -/
def LambdaBundle (b : Builder) (id : BuildIdentification)
    (config : LambdaBundleConfig) (env : ExecEnv) :
    List Event × Except String Builder :=
  match loadCredsResult b env with
  | Except.error e =>
      (credFetchEvents, Except.error ("failed to load external credentials: " ++ e))
  | Except.ok b1 =>
      let p := bundleBuildProcess b1 id config
      match env.runResult p with
      | some e =>
          (credFetchEvents ++ [Event.run p],
           Except.error ("failed to run \x22" ++ config.BuildCommand ++ "\x22: " ++ e))
      | none =>
          let zipfile := id.Commit ++ ".zip"
          if config.Runtime = "go1.x" then
            let zp := goZipProcess zipfile
            match env.runResult zp with
            | some e =>
                (credFetchEvents ++ [Event.run p, Event.run zp],
                 Except.error ("failed to create zip archive: " ++ e))
            | none =>
                let up := uploadProcess b1 id zipfile
                (credFetchEvents ++ [Event.run p, Event.run zp, Event.run up],
                 match env.runResult up with
                 | some e => Except.error ("failed upload to S3: " ++ e)
                 | none => Except.ok b1)
          else if config.Runtime = "nodejs14.x" then
            let zp := nodeZipProcess zipfile config
            match env.runResult zp with
            | some e =>
                (credFetchEvents ++ [Event.run p, Event.run zp],
                 Except.error ("failed to create zip archive: " ++ e))
            | none =>
                let up := uploadProcess b1 id zipfile
                (credFetchEvents ++ [Event.run p, Event.run zp, Event.run up],
                 match env.runResult up with
                 | some e => Except.error ("failed upload to S3: " ++ e)
                 | none => Except.ok b1)
          else
            (credFetchEvents ++ [Event.run p],
             Except.error ("unknown runtime " ++ config.Runtime))

/-- Models filepath.Join from builder.go DockerImage (without Go's path
cleaning normalization, on which no claim depends). -/
def joinPath (a b : String) : String := a ++ "/" ++ b

/-- builder.go DockerImage: the image tag
<accountId>.dkr.ecr.<region>.amazonaws.com/<repository>. -/
def ecrTag (b : Builder) (id : BuildIdentification) : String :=
  b.awsAccountID ++ ".dkr.ecr." ++ b.PrimaryAWSRegion ++ ".amazonaws.com/" ++ id.Repository

/-- builder.go ecrLogin source process: aws ecr get-login-password. -/
def ecrPasswordProcess : Process :=
  { WorkingDirectory := ""
    EnvironmentVariables := []
    Command := "aws"
    Arguments := ["ecr", "get-login-password"] }

/-- builder.go ecrLogin destination process: docker login with the
password on standard input. -/
def dockerLoginProcess (b : Builder) : Process :=
  { WorkingDirectory := ""
    EnvironmentVariables := []
    Command := "docker"
    Arguments :=
      [ "login", "--username", "AWS", "--password-stdin",
        b.awsAccountID ++ ".dkr.ecr." ++ b.PrimaryAWSRegion ++ ".amazonaws.com" ] }

/-- builder.go DockerImage build step process. -/
def dockerBuildProcess (b : Builder) (id : BuildIdentification)
    (config : DockerImageConfig) : Process :=
  { WorkingDirectory := id.Directory
    EnvironmentVariables := credEnvVars b
    Command := "docker"
    Arguments :=
      [ "build",
        "--build-arg", "AWS_ACCESS_KEY_ID=${AWS_ACCESS_KEY_ID}",
        "--build-arg", "AWS_SECRET_ACCESS_KEY=${AWS_SECRET_ACCESS_KEY}",
        "--build-arg", "AWS_SESSION_TOKEN=${AWS_SESSION_TOKEN}",
        "--build-arg", "GITHUB_ACCESS_TOKEN=${GITHUB_ACCESS_TOKEN}",
        "--tag", ecrTag b id,
        joinPath id.Directory config.DockerfilePath,
        joinPath id.Directory config.Context ] }

/-- builder.go DockerImage push step process. -/
def dockerPushProcess (b : Builder) (id : BuildIdentification) : Process :=
  { WorkingDirectory := id.Directory
    EnvironmentVariables := []
    Command := "docker"
    Arguments := ["push", ecrTag b id] }

/-- builder.go DockerImage: load credentials, ECR login via pipe (its
failure is wrapped by errors.Wrap(err, "") yielding a ": " prefix), docker
build, docker push, each error wrapped with the source's message. -/
def DockerImage (b : Builder) (id : BuildIdentification)
    (config : DockerImageConfig) (env : ExecEnv) :
    List Event × Except String Builder :=
  match loadCredsResult b env with
  | Except.error e =>
      (credFetchEvents, Except.error ("failed to load external credentials: " ++ e))
  | Except.ok b1 =>
      let srcP := ecrPasswordProcess
      let dstP := dockerLoginProcess b1
      match env.pipeResult srcP dstP with
      | some e =>
          (credFetchEvents ++ [Event.pipe srcP dstP],
           Except.error (": failed to log into ecr: " ++ e))
      | none =>
          let bp := dockerBuildProcess b1 id config
          match env.runResult bp with
          | some e =>
              (credFetchEvents ++ [Event.pipe srcP dstP, Event.run bp],
               Except.error ("docker build failed: " ++ e))
          | none =>
              let pp := dockerPushProcess b1 id
              (credFetchEvents ++ [Event.pipe srcP dstP, Event.run bp, Event.run pp],
               match env.runResult pp with
               | some e => Except.error ("docker push failed: " ++ e)
               | none => Except.ok b1)

/-- builder.go BuildAll error wrapping. The source uses the literal text
"build failed for lambda bundle %v" in both the lambda-bundle loop and
the docker-image loop. -/
def wrapIdx (i : Nat) (e : String) : String :=
  "build failed for lambda bundle " ++ toString i ++ ": " ++ e

/-- builder.go BuildAll, first loop: the lambda bundles in list order,
starting at index i, stopping at the first failure. -/
def runLambdaList (id : BuildIdentification) (env : ExecEnv) :
    Builder → Nat → List LambdaBundleConfig → List Event × Except String Builder
  | b, _, [] => ([], Except.ok b)
  | b, i, c :: rest =>
      match LambdaBundle b id c env with
      | (tr, Except.error e) => (tr, Except.error (wrapIdx i e))
      | (tr, Except.ok b1) =>
          (tr ++ (runLambdaList id env b1 (i + 1) rest).1,
           (runLambdaList id env b1 (i + 1) rest).2)

/-- builder.go BuildAll, second loop: the docker images in list order,
starting at index i, stopping at the first failure; the source wraps
these failures with the same "lambda bundle" text. -/
def runDockerList (id : BuildIdentification) (env : ExecEnv) :
    Builder → Nat → List DockerImageConfig → List Event × Except String Builder
  | b, _, [] => ([], Except.ok b)
  | b, i, c :: rest =>
      match DockerImage b id c env with
      | (tr, Except.error e) => (tr, Except.error (wrapIdx i e))
      | (tr, Except.ok b1) =>
          (tr ++ (runDockerList id env b1 (i + 1) rest).1,
           (runDockerList id env b1 (i + 1) rest).2)

/-- builder.go BuildAll: all lambda bundles by index, then all docker
images by index, returning at the first wrapped failure. -/
def BuildAll (b : Builder) (id : BuildIdentification) (builds : Builds)
    (env : ExecEnv) : List Event × Except String Builder :=
  match runLambdaList id env b 0 builds.LambdaBundles with
  | (tr, Except.error e) => (tr, Except.error e)
  | (tr, Except.ok b1) =>
      (tr ++ (runDockerList id env b1 0 builds.DockerImages).1,
       (runDockerList id env b1 0 builds.DockerImages).2)

/-- One task of a BuildAll call: either a lambda bundle or a docker
image. -/
inductive BTask where
  | lambdaBundle (c : LambdaBundleConfig) : BTask
  | dockerImage (c : DockerImageConfig) : BTask
deriving DecidableEq

/-- Execution of one task from a given builder state. -/
def execTask (id : BuildIdentification) (env : ExecEnv) (b : Builder) :
    BTask → List Event × Except String Builder
  | BTask.lambdaBundle c => LambdaBundle b id c env
  | BTask.dockerImage c => DockerImage b id c env

/-- Sequential execution of indexed tasks with the BuildAll wrapping,
threading the builder state and stopping at the first failure. -/
def runSeq (id : BuildIdentification) (env : ExecEnv) :
    Builder → List (Nat × BTask) → List Event × Except String Builder
  | b, [] => ([], Except.ok b)
  | b, (i, t) :: ts =>
      match execTask id env b t with
      | (tr, Except.error e) => (tr, Except.error (wrapIdx i e))
      | (tr, Except.ok b1) =>
          (tr ++ (runSeq id env b1 ts).1, (runSeq id env b1 ts).2)

/-- The combined task order of BuildAll: the lambda bundles by list index,
then the docker images by list index, each carrying the index within its
own kind (the loop counter used for error wrapping). -/
def idxTasks (builds : Builds) : List (Nat × BTask) :=
  ((builds.LambdaBundles.enumFrom 0).map fun p => (p.1, BTask.lambdaBundle p.2))
    ++ ((builds.DockerImages.enumFrom 0).map fun p => (p.1, BTask.dockerImage p.2))

/-- The per-task traces of a sequential task run: one trace for every
attempted task, in order. -/
def seqTraces (id : BuildIdentification) (env : ExecEnv) :
    Builder → List (Nat × BTask) → List (List Event)
  | _, [] => []
  | b, (_, t) :: ts =>
      match execTask id env b t with
      | (tr, Except.error _) => [tr]
      | (tr, Except.ok b1) => tr :: seqTraces id env b1 ts

/-- Modelled from the spec: tokenization of the build command "by
whitespace" in the sense of whitespace-separated tokens (runs of
whitespace separate tokens, no empty tokens), as the spec's words state;
used only to compare against the source's split-on-single-space. -/
def whitespaceTokensSpec (s : String) : List String :=
  ((splitChars Char.isWhitespace s.data).map String.mk).filter (fun t => t != "")

/-- The chunked copy loop of io.Copy as used by Process.Pipe in the
command package: repeatedly read a chunk of at most the read size the
pipe offers at step n, write it, until the source is exhausted; fuel
bounds the recursion and suffices whenever every chunk is nonempty. -/
def ioCopyGo (sched : Nat → Nat) : Nat → Nat → List UInt8 → List UInt8
  | _, _, [] => []
  | _, 0, _ => []
  | n, fuel + 1, l => l.take (sched n) ++ ioCopyGo sched (n + 1) fuel (l.drop (sched n))

/-- Bytes written by the io.Copy loop for a source stream, with one unit
of fuel per source byte. -/
def ioCopy (sched : Nat → Nat) (src : List UInt8) : List UInt8 :=
  ioCopyGo sched 0 src.length src

/-- The data path of Process.Pipe in the command package: process A's
standard output is connected to io.Copy, whose output is written
unchanged to process B's standard input; the bytes B's standard input
receives are exactly the bytes the copy loop emits. -/
def pipeDelivered (sched : Nat → Nat) (aStdout : List UInt8) : List UInt8 :=
  ioCopy sched aStdout

/-- Outcome of os.ReadFile in builds.go Read: either the file content or
a failure for any reason (absence, permissions, I/O error, ...). -/
inductive FileReadResult where
  | ok (content : String) : FileReadResult
  | failed (reason : String) : FileReadResult
deriving DecidableEq

/-- builds.go deserialize: yaml.Unmarshal (abstract parse parameter)
wrapped with the source's (misspelled) message. -/
def deserialize (parse : String → Except String Builds) (yml : String) :
    Except String Builds :=
  match parse yml with
  | Except.error e => Except.error ("deserialzation failure: " ++ e)
  | Except.ok b => Except.ok b

/-- builds.go Read: on any os.ReadFile error return (nil, nil); otherwise
parse, wrapping a parse failure; on success return the builds. -/
def Read (readFile : FileReadResult) (parse : String → Except String Builds) :
    Option Builds × Option String :=
  match readFile with
  | FileReadResult.failed _ => (none, none)
  | FileReadResult.ok yml =>
      match deserialize parse yml with
      | Except.error e => (none, some ("failed to parse builds.yaml: " ++ e))
      | Except.ok b => (some b, none)

/-- Concrete credentials for test fixtures. -/
def testCreds : AWSCredentials :=
  { AccessKeyID := "AKID", SecretAccessKey := "SECRET", SessionToken := "TOKEN" }

/-- A fresh builder as produced by NewBuilder, before any credential
load. -/
def testBuilder : Builder :=
  { githubToken := "", awsCreds := { AccessKeyID := "", SecretAccessKey := "", SessionToken := "" },
    awsAccountID := "", PrimaryAWSRegion := "us-east-1" }

/-- The builder after a successful credential load under okEnv. -/
def testBuilderLoaded : Builder :=
  { githubToken := "ghtoken", awsCreds := testCreds,
    awsAccountID := "123456789012", PrimaryAWSRegion := "us-east-1" }

/-- Concrete build identification fixture. -/
def testId : BuildIdentification :=
  { Repository := "org/app", Commit := "deadbeef", Directory := "/src" }

/-- Default triggers fixture. -/
def testTriggers : Triggers := { Branches := [], Keywords := ["[build]"] }

/-- Environment in which every fetch succeeds and every process run
succeeds except a command named "false". -/
def okEnv : ExecEnv :=
  { runResult := fun p => if p.Command = "false" then some "exit status 1" else none,
    pipeResult := fun _ _ => none,
    secretValue := Except.ok "ghtoken",
    awsConfig := Except.ok (),
    awsRetrieve := Except.ok testCreds,
    callerIdentity := Except.ok "123456789012",
    schedule := [0, 1, 2] }

/-- okEnv with a failing STS caller-identity lookup. -/
def stsFailEnv : ExecEnv :=
  { okEnv with callerIdentity := Except.error "sts down" }

/-- okEnv with every pipe failing (ECR login failure). -/
def pipeFailEnv : ExecEnv :=
  { okEnv with pipeResult := fun _ _ => some "no basic auth credentials" }

/-- A go1.x lambda-bundle configuration whose build command succeeds. -/
def goCfg : LambdaBundleConfig :=
  { Runtime := "go1.x", BuildCommand := "true", IncludePaths := none,
    ExcludePaths := none, Triggers := testTriggers }

/-- A go1.x configuration whose build command fails under okEnv. -/
def failCfg : LambdaBundleConfig := { goCfg with BuildCommand := "false" }

/-- A lambda-bundle configuration with an unrecognized runtime kind. -/
def badRuntimeCfg : LambdaBundleConfig := { goCfg with Runtime := "python3.9" }

/-- A configuration whose build command holds two consecutive spaces. -/
def doubleSpaceCfg : LambdaBundleConfig := { goCfg with BuildCommand := "make  build" }

/-- A docker-image configuration fixture. -/
def testDockerCfg : DockerImageConfig :=
  { DockerfilePath := "Dockerfile", Context := ".", Triggers := testTriggers }

/-- A task set with one succeeding and one failing lambda bundle. -/
def twoLambdaBuilds : Builds :=
  { DockerImages := [], LambdaBundles := [goCfg, failCfg] }

/-- A task set with a single docker image and no lambda bundles. -/
def oneDockerBuilds : Builds :=
  { DockerImages := [testDockerCfg], LambdaBundles := [] }

/-- A task set with a single lambda bundle. -/
def oneLambdaBuilds : Builds :=
  { DockerImages := [], LambdaBundles := [goCfg] }

/-- The first external run in a trace, if any. -/
def firstRunProcess (tr : List Event) : Option Process :=
  (tr.filterMap fun ev =>
    match ev with
    | Event.run p => some p
    | _ => none).head?

/-- The trace of the first task of twoLambdaBuilds under okEnv: fetches,
build command, archive, upload. -/
def task0Trace : List Event :=
  credFetchEvents ++
    [ Event.run (bundleBuildProcess testBuilderLoaded testId goCfg),
      Event.run (goZipProcess "deadbeef.zip"),
      Event.run (uploadProcess testBuilderLoaded testId "deadbeef.zip") ]

/-- The trace of the second task of twoLambdaBuilds under okEnv: fetches,
then the failing build command. -/
def task1Trace : List Event :=
  credFetchEvents ++ [Event.run (bundleBuildProcess testBuilderLoaded testId failCfg)]

theorem filterMap_head_of_single {f : Nat → Option String} {j : Nat} {e : String}
    {l : List Nat} (hj : j ∈ l) (hfail : f j = some e)
    (hothers : ∀ i, i ≠ j → f i = none) :
    (l.filterMap f).head? = some e := by
  induction l with
  | nil => cases hj
  | cons a t ih =>
      by_cases ha : a = j
      · subst ha
        simp [List.filterMap_cons, hfail]
      · have hfa : f a = none := hothers a ha
        have hjt : j ∈ t := by
          cases hj with
          | head => exact absurd rfl ha
          | tail _ h => exact h
        simp [List.filterMap_cons, hfa, ih hjt]

/-- C4: if exactly one of the three concurrent fetches of the credential
loader fails, Load returns overall failure carrying that operation's
error, the success of the two siblings never yields an overall success,
and all three fetches are waited for (all three appear in the trace)
regardless of the failure. -/
theorem load_single_failure (b : Builder) (env : ExecEnv) (j : Nat) (e : String)
    (hj : j ∈ env.schedule)
    (hfail : credsErrOf b env j = some e)
    (hothers : ∀ i, i ≠ j → credsErrOf b env i = none) :
    loadCreds b env = (credFetchEvents, Except.error e) := by
  have h := filterMap_head_of_single hj hfail hothers
  simp [loadCreds, loadCredsResult, errgroupWait, h]

/-- Witness for load_single_failure: the caller-identity lookup fails
while the token and credential fetches succeed. -/
theorem load_single_failure_witness :
    loadCreds testBuilder stsFailEnv
      = (credFetchEvents, Except.error "failed to get AWS identity: sts down") :=
  load_single_failure testBuilder stsFailEnv 2 "failed to get AWS identity: sts down"
    (by decide) rfl
    (fun i hi => by
      match i with
      | 0 => rfl
      | 1 => rfl
      | 2 => exact absurd rfl hi
      | n + 3 => rfl)

/-- C9: a BuildAll call on a task set with no lambda bundles and no
docker images returns success with an empty trace: no credential fetch
and no external process invocation. -/
theorem buildAll_empty_tasks (b : Builder) (id : BuildIdentification) (env : ExecEnv) :
    BuildAll b id { DockerImages := [], LambdaBundles := [] } env = ([], Except.ok b) := rfl

/-- C10: the configuration Read returns (no configuration, no error) for
every failure reason of the file read (absence and permission errors
alike), and an error is returned exactly when the file was read but
failed to parse. -/
theorem read_failure_indistinguishable (reason : String)
    (parse : String → Except String Builds) :
    Read (FileReadResult.failed reason) parse = (none, none)
    ∧ ∀ yml, ((Read (FileReadResult.ok yml) parse).2.isSome = true
        ↔ ∃ e, parse yml = Except.error e) := by
  refine ⟨rfl, fun yml => ?_⟩
  cases hp : parse yml with
  | error e => simp [Read, deserialize, hp]
  | ok b => simp [Read, deserialize, hp]

/-- Witness for read_failure_indistinguishable at a concrete permission
failure and parse function. -/
theorem read_failure_indistinguishable_witness :
    Read (FileReadResult.failed "permission denied") (fun _ => Except.error "bad")
      = (none, none) :=
  (read_failure_indistinguishable "permission denied" (fun _ => Except.error "bad")).1

theorem ioCopyGo_eq (sched : Nat → Nat) (hs : ∀ n, 0 < sched n) :
    ∀ (fuel n : Nat) (l : List UInt8), l.length ≤ fuel → ioCopyGo sched n fuel l = l := by
  intro fuel
  induction fuel with
  | zero =>
      intro n l hl
      match l with
      | [] => rfl
      | a :: t => simp at hl
  | succ fuel ih =>
      intro n l hl
      match l with
      | [] => rfl
      | a :: t =>
          have hdrop : ((a :: t).drop (sched n)).length ≤ fuel := by
            have h1 := hs n
            simp only [List.length_drop] at *
            omega
          calc ioCopyGo sched n (fuel + 1) (a :: t)
              = (a :: t).take (sched n) ++ ioCopyGo sched (n + 1) fuel ((a :: t).drop (sched n)) := rfl
            _ = (a :: t).take (sched n) ++ (a :: t).drop (sched n) := by rw [ih (n + 1) _ hdrop]
            _ = a :: t := List.take_append_drop _ _

/-- C8: the Pipe data path delivers every byte process A writes to its
standard output to process B's standard input, in order and with no loss,
for arbitrary binary content, whatever positive chunk sizes the copy
loop's reads return. -/
theorem pipe_byte_exact (sched : Nat → Nat) (bytes : List UInt8)
    (hs : ∀ n, 0 < sched n) :
    pipeDelivered sched bytes = bytes :=
  ioCopyGo_eq sched hs bytes.length 0 bytes le_rfl

/-- Witness for pipe_byte_exact: seven bytes copied in chunks of at most
three. -/
theorem pipe_byte_exact_witness :
    pipeDelivered (fun _ => 3) [0, 1, 2, 3, 4, 5, 255] = [0, 1, 2, 3, 4, 5, 255] :=
  pipe_byte_exact (fun _ => 3) [0, 1, 2, 3, 4, 5, 255] (fun _ => Nat.succ_pos 2)

/-- C1 counterexample: with the unrecognized runtime "python3.9" and an
otherwise succeeding environment, executing the function-bundle task
performs one external process invocation (the configured build command),
not zero, so the task does not fail without running the build command. -/
theorem bundle_unknown_runtime_counterexample :
    externalInvocations (LambdaBundle testBuilder testId badRuntimeCfg okEnv).1 = 1
    ∧ (1 : Nat) ≠ 0 := by
  exact ⟨rfl, by decide⟩

/-- C1 amended: for an unrecognized runtime kind (and a successful
credential load and build command), the task fails with exactly the
unknown-runtime configuration error, and the trace holds the credential
fetches and the build command run only: the archiver and the uploader
are never invoked, but the build command is run first. -/
theorem bundle_unknown_runtime_config_error (b b1 : Builder)
    (id : BuildIdentification) (c : LambdaBundleConfig) (env : ExecEnv)
    (hload : loadCredsResult b env = Except.ok b1)
    (hbuild : env.runResult (bundleBuildProcess b1 id c) = none)
    (h1 : c.Runtime ≠ "go1.x") (h2 : c.Runtime ≠ "nodejs14.x") :
    LambdaBundle b id c env
      = (credFetchEvents ++ [Event.run (bundleBuildProcess b1 id c)],
         Except.error ("unknown runtime " ++ c.Runtime)) := by
  simp [LambdaBundle, hload, hbuild, if_neg h1, if_neg h2]

/-- Witness for bundle_unknown_runtime_config_error at the concrete
fixtures. -/
theorem bundle_unknown_runtime_config_error_witness :
    LambdaBundle testBuilder testId badRuntimeCfg okEnv
      = (credFetchEvents ++ [Event.run (bundleBuildProcess testBuilderLoaded testId badRuntimeCfg)],
         Except.error ("unknown runtime " ++ badRuntimeCfg.Runtime)) :=
  bundle_unknown_runtime_config_error testBuilder testBuilderLoaded testId badRuntimeCfg okEnv
    rfl rfl (by decide) (by decide)

/-- C5: for a recognized runtime kind (after a successful credential load
and build command), the archive step is the fourth event of the task:
a zip invocation whose target is the archive named commit ++ ".zip" —
written as ../<commit>.zip from inside the dist output directory in the
go1.x case (a file named <commit>.zip in the source directory), and as
<commit>.zip directly in the nodejs14.x case. The name depends only on
the commit, not on the repository or on which recognized runtime is
configured. -/
theorem archive_name_is_commit_zip (b b1 : Builder) (id : BuildIdentification)
    (c : LambdaBundleConfig) (env : ExecEnv)
    (hload : loadCredsResult b env = Except.ok b1)
    (hbuild : env.runResult (bundleBuildProcess b1 id c) = none)
    (hrt : c.Runtime = "go1.x" ∨ c.Runtime = "nodejs14.x") :
    ∃ zp rest,
      (LambdaBundle b id c env).1
        = credFetchEvents ++ Event.run (bundleBuildProcess b1 id c) :: Event.run zp :: rest
      ∧ (zp = goZipProcess (id.Commit ++ ".zip")
          ∨ zp = nodeZipProcess (id.Commit ++ ".zip") c) := by
  rcases hrt with h | h
  · cases hz : env.runResult (goZipProcess (id.Commit ++ ".zip")) with
    | some e =>
        exact ⟨goZipProcess (id.Commit ++ ".zip"), [],
          by simp [LambdaBundle, hload, hbuild, h, hz], Or.inl rfl⟩
    | none =>
        exact ⟨goZipProcess (id.Commit ++ ".zip"),
          [Event.run (uploadProcess b1 id (id.Commit ++ ".zip"))],
          by simp [LambdaBundle, hload, hbuild, h, hz], Or.inl rfl⟩
  · have hne : c.Runtime ≠ "go1.x" := by rw [h]; decide
    cases hz : env.runResult (nodeZipProcess (id.Commit ++ ".zip") c) with
    | some e =>
        exact ⟨nodeZipProcess (id.Commit ++ ".zip") c, [],
          by simp [LambdaBundle, hload, hbuild, h, hne, hz], Or.inr rfl⟩
    | none =>
        exact ⟨nodeZipProcess (id.Commit ++ ".zip") c,
          [Event.run (uploadProcess b1 id (id.Commit ++ ".zip"))],
          by simp [LambdaBundle, hload, hbuild, h, hne, hz], Or.inr rfl⟩

/-- Witness for archive_name_is_commit_zip at the go1.x fixture. -/
theorem archive_name_is_commit_zip_witness :
    ∃ zp rest,
      (LambdaBundle testBuilder testId goCfg okEnv).1
        = credFetchEvents
            ++ Event.run (bundleBuildProcess testBuilderLoaded testId goCfg)
              :: Event.run zp :: rest
      ∧ (zp = goZipProcess (testId.Commit ++ ".zip")
          ∨ zp = nodeZipProcess (testId.Commit ++ ".zip") goCfg) :=
  archive_name_is_commit_zip testBuilder testBuilderLoaded testId goCfg okEnv
    rfl rfl (Or.inl rfl)

/-- C6 counterexample: the build command "make  build" (two consecutive
spaces) is executed with the argument list ["", "build"], not with the
remaining whitespace-separated tokens ["build"]: the source splits on
single space characters, so consecutive spaces yield an empty argument. -/
theorem build_tokenize_counterexample :
    (firstRunProcess (LambdaBundle testBuilder testId doubleSpaceCfg okEnv).1).map
        Process.Arguments = some ["", "build"]
    ∧ (whitespaceTokensSpec doubleSpaceCfg.BuildCommand).tail = ["build"]
    ∧ (some ["", "build"] : Option (List String)) ≠ some ["build"] := by
  exact ⟨rfl, rfl, by decide⟩

/-- C6 amended: after a successful credential load, the first external
invocation of a function-bundle task runs, inside the source directory
and with the credential environment variables injected, the process whose
command name is the first piece of the build command split on single
space characters and whose arguments are the remaining pieces (empty
pieces included; no quoting, and other whitespace is not a separator). -/
theorem build_command_space_split (b b1 : Builder) (id : BuildIdentification)
    (c : LambdaBundleConfig) (env : ExecEnv)
    (hload : loadCredsResult b env = Except.ok b1) :
    ∃ rest,
      (LambdaBundle b id c env).1
        = credFetchEvents ++ Event.run (bundleBuildProcess b1 id c) :: rest
      ∧ (bundleBuildProcess b1 id c).Command
          = (splitOnSpace c.BuildCommand).headD ""
      ∧ (bundleBuildProcess b1 id c).Arguments
          = (splitOnSpace c.BuildCommand).tail
      ∧ (bundleBuildProcess b1 id c).WorkingDirectory = id.Directory
      ∧ (bundleBuildProcess b1 id c).EnvironmentVariables = credEnvVars b1 := by
  cases hb : env.runResult (bundleBuildProcess b1 id c) with
  | some e =>
      exact ⟨[], by simp [LambdaBundle, hload, hb], rfl, rfl, rfl, rfl⟩
  | none =>
      by_cases h1 : c.Runtime = "go1.x"
      · cases hz : env.runResult (goZipProcess (id.Commit ++ ".zip")) with
        | some e =>
            exact ⟨[Event.run (goZipProcess (id.Commit ++ ".zip"))],
              by simp [LambdaBundle, hload, hb, h1, hz], rfl, rfl, rfl, rfl⟩
        | none =>
            exact ⟨[Event.run (goZipProcess (id.Commit ++ ".zip")),
                Event.run (uploadProcess b1 id (id.Commit ++ ".zip"))],
              by simp [LambdaBundle, hload, hb, h1, hz], rfl, rfl, rfl, rfl⟩
      · by_cases h2 : c.Runtime = "nodejs14.x"
        · cases hz : env.runResult (nodeZipProcess (id.Commit ++ ".zip") c) with
          | some e =>
              exact ⟨[Event.run (nodeZipProcess (id.Commit ++ ".zip") c)],
                by simp [LambdaBundle, hload, hb, h1, h2, hz], rfl, rfl, rfl, rfl⟩
          | none =>
              exact ⟨[Event.run (nodeZipProcess (id.Commit ++ ".zip") c),
                  Event.run (uploadProcess b1 id (id.Commit ++ ".zip"))],
                by simp [LambdaBundle, hload, hb, h1, h2, hz], rfl, rfl, rfl, rfl⟩
        · exact ⟨[], by simp [LambdaBundle, hload, hb, h1, h2], rfl, rfl, rfl, rfl⟩

/-- Witness for build_command_space_split at the concrete fixtures. -/
theorem build_command_space_split_witness :
    ∃ rest,
      (LambdaBundle testBuilder testId goCfg okEnv).1
        = credFetchEvents ++ Event.run (bundleBuildProcess testBuilderLoaded testId goCfg) :: rest
      ∧ (bundleBuildProcess testBuilderLoaded testId goCfg).Command
          = (splitOnSpace goCfg.BuildCommand).headD ""
      ∧ (bundleBuildProcess testBuilderLoaded testId goCfg).Arguments
          = (splitOnSpace goCfg.BuildCommand).tail
      ∧ (bundleBuildProcess testBuilderLoaded testId goCfg).WorkingDirectory = testId.Directory
      ∧ (bundleBuildProcess testBuilderLoaded testId goCfg).EnvironmentVariables
          = credEnvVars testBuilderLoaded :=
  build_command_space_split testBuilder testBuilderLoaded testId goCfg okEnv rfl

theorem runSeq_append_ok (id : BuildIdentification) (env : ExecEnv)
    (l1 : List (Nat × BTask)) :
    ∀ (l2 : List (Nat × BTask)) (b b1 : Builder) (t1 : List Event),
      runSeq id env b l1 = (t1, Except.ok b1) →
      runSeq id env b (l1 ++ l2)
        = (t1 ++ (runSeq id env b1 l2).1, (runSeq id env b1 l2).2) := by
  induction l1 with
  | nil =>
      intro l2 b b1 t1 h
      simp [runSeq] at h
      obtain ⟨h1, h2⟩ := h
      subst h1; subst h2
      simp
  | cons p rest ih =>
      intro l2 b b1 t1 h
      obtain ⟨i, tk⟩ := p
      rw [List.cons_append]
      rw [runSeq] at h ⊢
      cases hE : execTask id env b tk with
      | mk tr r =>
          rw [hE] at h
          cases r with
          | error e => simp at h
          | ok b2 =>
              have h2 : (tr ++ (runSeq id env b2 rest).1, (runSeq id env b2 rest).2)
                  = (t1, Except.ok b1) := h
              cases hR : runSeq id env b2 rest with
              | mk tr2 r2 =>
                  rw [hR] at h2
                  simp at h2
                  obtain ⟨h3, h4⟩ := h2
                  have hih := ih l2 b2 b1 tr2 (by rw [hR, h4])
                  show (tr ++ (runSeq id env b2 (rest ++ l2)).1,
                        (runSeq id env b2 (rest ++ l2)).2)
                      = (t1 ++ (runSeq id env b1 l2).1, (runSeq id env b1 l2).2)
                  rw [hih]
                  simp [← h3, List.append_assoc]

theorem runSeq_append_error (id : BuildIdentification) (env : ExecEnv)
    (l1 : List (Nat × BTask)) :
    ∀ (l2 : List (Nat × BTask)) (b : Builder) (t1 : List Event) (e : String),
      runSeq id env b l1 = (t1, Except.error e) →
      runSeq id env b (l1 ++ l2) = (t1, Except.error e) := by
  induction l1 with
  | nil =>
      intro l2 b t1 e h
      simp [runSeq] at h
  | cons p rest ih =>
      intro l2 b t1 e h
      obtain ⟨i, tk⟩ := p
      rw [List.cons_append]
      rw [runSeq] at h ⊢
      cases hE : execTask id env b tk with
      | mk tr r =>
          rw [hE] at h
          cases r with
          | error e0 => exact h
          | ok b2 =>
              have h2 : (tr ++ (runSeq id env b2 rest).1, (runSeq id env b2 rest).2)
                  = (t1, Except.error e) := h
              cases hR : runSeq id env b2 rest with
              | mk tr2 r2 =>
                  rw [hR] at h2
                  simp at h2
                  obtain ⟨h3, h4⟩ := h2
                  have hih := ih l2 b2 tr2 e (by rw [hR, h4])
                  show (tr ++ (runSeq id env b2 (rest ++ l2)).1,
                        (runSeq id env b2 (rest ++ l2)).2)
                      = (t1, Except.error e)
                  rw [hih]
                  simp [← h3]

theorem runLambdaList_eq (id : BuildIdentification) (env : ExecEnv)
    (cs : List LambdaBundleConfig) :
    ∀ (b : Builder) (i : Nat),
      runLambdaList id env b i cs
        = runSeq id env b ((cs.enumFrom i).map fun p => (p.1, BTask.lambdaBundle p.2)) := by
  induction cs with
  | nil => intro b i; rfl
  | cons c rest ih =>
      intro b i
      rw [List.enumFrom, List.map, runLambdaList, runSeq]
      cases hE : LambdaBundle b id c env with
      | mk tr r =>
          have hT : execTask id env b (BTask.lambdaBundle c) = (tr, r) := hE
          rw [hT]
          cases r with
          | error e => rfl
          | ok b1 =>
              exact congrArg (fun pr => (tr ++ pr.1, pr.2)) (ih b1 (i + 1))

theorem runDockerList_eq (id : BuildIdentification) (env : ExecEnv)
    (cs : List DockerImageConfig) :
    ∀ (b : Builder) (i : Nat),
      runDockerList id env b i cs
        = runSeq id env b ((cs.enumFrom i).map fun p => (p.1, BTask.dockerImage p.2)) := by
  induction cs with
  | nil => intro b i; rfl
  | cons c rest ih =>
      intro b i
      rw [List.enumFrom, List.map, runDockerList, runSeq]
      cases hE : DockerImage b id c env with
      | mk tr r =>
          have hT : execTask id env b (BTask.dockerImage c) = (tr, r) := hE
          rw [hT]
          cases r with
          | error e => rfl
          | ok b1 =>
              exact congrArg (fun pr => (tr ++ pr.1, pr.2)) (ih b1 (i + 1))

theorem buildAll_eq_runSeq (b : Builder) (id : BuildIdentification)
    (builds : Builds) (env : ExecEnv) :
    BuildAll b id builds env = runSeq id env b (idxTasks builds) := by
  rw [BuildAll, idxTasks]
  cases hL : runLambdaList id env b 0 builds.LambdaBundles with
  | mk tr r =>
      have hL2 : runSeq id env b
          ((builds.LambdaBundles.enumFrom 0).map fun p => (p.1, BTask.lambdaBundle p.2))
            = (tr, r) := by
        rw [← runLambdaList_eq]; exact hL
      cases r with
      | error e =>
          rw [runSeq_append_error id env _ _ b tr e hL2]
      | ok b1 =>
          rw [runSeq_append_ok id env _ _ b b1 tr hL2]
          rw [← runDockerList_eq]

/-- C2: BuildAll executes the tasks in the order of idxTasks — all
function-bundle tasks by list index, then all container-image tasks by
list index — and when the tasks before position k succeed and the task
at position k fails, the trace of BuildAll is exactly the traces of
tasks 0..k and the result is an error: no task after position k is
attempted. -/
theorem buildAll_failfast (b b1 : Builder) (id : BuildIdentification)
    (builds : Builds) (env : ExecEnv) (k : Nat)
    (hk : k < (idxTasks builds).length)
    (trPre trK : List Event) (e : String)
    (hpre : runSeq id env b ((idxTasks builds).take k) = (trPre, Except.ok b1))
    (hfail : execTask id env b1 ((idxTasks builds).get ⟨k, hk⟩).2
        = (trK, Except.error e)) :
    BuildAll b id builds env
      = (trPre ++ trK,
         Except.error (wrapIdx ((idxTasks builds).get ⟨k, hk⟩).1 e)) := by
  have hsplit : idxTasks builds
      = (idxTasks builds).take k
          ++ ((idxTasks builds).get ⟨k, hk⟩ :: (idxTasks builds).drop (k + 1)) := by
    conv_lhs => rw [← List.take_append_drop k (idxTasks builds)]
    rw [List.drop_eq_getElem_cons hk]
    simp [List.get_eq_getElem]
  rw [buildAll_eq_runSeq, congrArg (fun l => runSeq id env b l) hsplit]
  rw [runSeq_append_ok id env _ _ b b1 trPre hpre]
  have hcons : runSeq id env b1
      ((idxTasks builds).get ⟨k, hk⟩ :: (idxTasks builds).drop (k + 1))
        = (trK, Except.error (wrapIdx ((idxTasks builds).get ⟨k, hk⟩).1 e)) := by
    cases hP : (idxTasks builds).get ⟨k, hk⟩ with
    | mk i tk =>
        rw [hP] at hfail
        rw [runSeq, hfail]
  rw [hcons]

/-- Witness for buildAll_failfast: two lambda-bundle tasks where the
second fails its build command; BuildAll attempts exactly both and
reports the failure wrapped at index 1. -/
theorem buildAll_failfast_witness :
    BuildAll testBuilder testId twoLambdaBuilds okEnv
      = (task0Trace ++ task1Trace,
         Except.error
           "build failed for lambda bundle 1: failed to run \x22false\x22: exit status 1") := by
  have hk : 1 < (idxTasks twoLambdaBuilds).length := by decide
  have hg : ((idxTasks twoLambdaBuilds).get ⟨1, hk⟩).1 = 1 := rfl
  have h1 := buildAll_failfast testBuilder testBuilderLoaded testId twoLambdaBuilds okEnv 1 hk
    task0Trace task1Trace "failed to run \x22false\x22: exit status 1" rfl rfl
  rw [hg] at h1
  exact h1

/-- C3 (code bug): a failing container-image task at docker-image index 0
is reported by BuildAll with the wrapping text "build failed for lambda
bundle 0" — the same kind label a failing function-bundle task would get —
so the error names the wrong task kind for container-image failures. -/
theorem docker_failure_mislabeled :
    (BuildAll testBuilder testId oneDockerBuilds pipeFailEnv).2
      = Except.error
          "build failed for lambda bundle 0: : failed to log into ecr: no basic auth credentials" := rfl

theorem lambdaBundle_trace_shape (b : Builder) (id : BuildIdentification)
    (c : LambdaBundleConfig) (env : ExecEnv) :
    ∃ rest, (LambdaBundle b id c env).1 = credFetchEvents ++ rest
      ∧ ∀ ev ∈ rest, isCredFetch ev = false := by
  cases hL : loadCredsResult b env with
  | error e => exact ⟨[], by simp [LambdaBundle, hL], by simp⟩
  | ok b1 =>
      cases hb : env.runResult (bundleBuildProcess b1 id c) with
      | some e =>
          exact ⟨[Event.run (bundleBuildProcess b1 id c)],
            by simp [LambdaBundle, hL, hb], by simp [isCredFetch]⟩
      | none =>
          by_cases h1 : c.Runtime = "go1.x"
          · cases hz : env.runResult (goZipProcess (id.Commit ++ ".zip")) with
            | some e =>
                exact ⟨[Event.run (bundleBuildProcess b1 id c),
                    Event.run (goZipProcess (id.Commit ++ ".zip"))],
                  by simp [LambdaBundle, hL, hb, h1, hz], by simp [isCredFetch]⟩
            | none =>
                exact ⟨[Event.run (bundleBuildProcess b1 id c),
                    Event.run (goZipProcess (id.Commit ++ ".zip")),
                    Event.run (uploadProcess b1 id (id.Commit ++ ".zip"))],
                  by simp [LambdaBundle, hL, hb, h1, hz], by simp [isCredFetch]⟩
          · by_cases h2 : c.Runtime = "nodejs14.x"
            · cases hz : env.runResult (nodeZipProcess (id.Commit ++ ".zip") c) with
              | some e =>
                  exact ⟨[Event.run (bundleBuildProcess b1 id c),
                      Event.run (nodeZipProcess (id.Commit ++ ".zip") c)],
                    by simp [LambdaBundle, hL, hb, h1, h2, hz], by simp [isCredFetch]⟩
              | none =>
                  exact ⟨[Event.run (bundleBuildProcess b1 id c),
                      Event.run (nodeZipProcess (id.Commit ++ ".zip") c),
                      Event.run (uploadProcess b1 id (id.Commit ++ ".zip"))],
                    by simp [LambdaBundle, hL, hb, h1, h2, hz], by simp [isCredFetch]⟩
            · exact ⟨[Event.run (bundleBuildProcess b1 id c)],
                by simp [LambdaBundle, hL, hb, h1, h2], by simp [isCredFetch]⟩

theorem dockerImage_trace_shape (b : Builder) (id : BuildIdentification)
    (c : DockerImageConfig) (env : ExecEnv) :
    ∃ rest, (DockerImage b id c env).1 = credFetchEvents ++ rest
      ∧ ∀ ev ∈ rest, isCredFetch ev = false := by
  cases hL : loadCredsResult b env with
  | error e => exact ⟨[], by simp [DockerImage, hL], by simp⟩
  | ok b1 =>
      cases hp : env.pipeResult ecrPasswordProcess (dockerLoginProcess b1) with
      | some e =>
          exact ⟨[Event.pipe ecrPasswordProcess (dockerLoginProcess b1)],
            by simp [DockerImage, hL, hp], by simp [isCredFetch]⟩
      | none =>
          cases hb : env.runResult (dockerBuildProcess b1 id c) with
          | some e =>
              exact ⟨[Event.pipe ecrPasswordProcess (dockerLoginProcess b1),
                  Event.run (dockerBuildProcess b1 id c)],
                by simp [DockerImage, hL, hp, hb], by simp [isCredFetch]⟩
          | none =>
              exact ⟨[Event.pipe ecrPasswordProcess (dockerLoginProcess b1),
                  Event.run (dockerBuildProcess b1 id c),
                  Event.run (dockerPushProcess b1 id)],
                by simp [DockerImage, hL, hp, hb], by simp [isCredFetch]⟩

theorem execTask_trace_shape (id : BuildIdentification) (env : ExecEnv)
    (b : Builder) (t : BTask) :
    ∃ rest, (execTask id env b t).1 = credFetchEvents ++ rest
      ∧ ∀ ev ∈ rest, isCredFetch ev = false := by
  cases t with
  | lambdaBundle c => exact lambdaBundle_trace_shape b id c env
  | dockerImage c => exact dockerImage_trace_shape b id c env

theorem seqTraces_shape (id : BuildIdentification) (env : ExecEnv)
    (ts : List (Nat × BTask)) :
    ∀ (b : Builder) (tr : List Event), tr ∈ seqTraces id env b ts →
      ∃ rest, tr = credFetchEvents ++ rest
        ∧ ∀ ev ∈ rest, isCredFetch ev = false := by
  induction ts with
  | nil => intro b tr h; simp [seqTraces] at h
  | cons p rest ih =>
      intro b tr h
      obtain ⟨i, tk⟩ := p
      rw [seqTraces] at h
      cases hE : execTask id env b tk with
      | mk tr0 r =>
          rw [hE] at h
          have hshape := execTask_trace_shape id env b tk
          rw [hE] at hshape
          cases r with
          | error e =>
              simp at h
              subst h
              exact hshape
          | ok b1 =>
              simp at h
              cases h with
              | inl h => subst h; exact hshape
              | inr h => exact ih b1 tr h

theorem runSeq_fst_eq_join (id : BuildIdentification) (env : ExecEnv)
    (ts : List (Nat × BTask)) :
    ∀ b : Builder, (runSeq id env b ts).1 = (seqTraces id env b ts).flatten := by
  induction ts with
  | nil => intro b; rfl
  | cons p rest ih =>
      intro b
      obtain ⟨i, tk⟩ := p
      rw [runSeq, seqTraces]
      cases hE : execTask id env b tk with
      | mk tr0 r =>
          cases r with
          | error e => simp
          | ok b1 => simp [ih b1]

/-- C7: the trace of a BuildAll call is the concatenation of the traces
of the attempted tasks (in the combined bundles-then-images order), and
every attempted task's trace begins with the three credential-fetch
events and holds no further credential fetch: credentials are freshly
(re-)loaded immediately before every individual task, container-image
and function-bundle alike, and never reused across two tasks. -/
theorem creds_fresh_per_task (b : Builder) (id : BuildIdentification)
    (builds : Builds) (env : ExecEnv) :
    (BuildAll b id builds env).1 = (seqTraces id env b (idxTasks builds)).flatten
    ∧ ∀ tr ∈ seqTraces id env b (idxTasks builds),
        ∃ rest, tr = credFetchEvents ++ rest
          ∧ ∀ ev ∈ rest, isCredFetch ev = false := by
  constructor
  · rw [buildAll_eq_runSeq]
    exact runSeq_fst_eq_join id env (idxTasks builds) b
  · exact fun tr h => seqTraces_shape id env (idxTasks builds) b tr h

/-- Witness for creds_fresh_per_task: the single task trace of
oneLambdaBuilds begins with the credential fetches and holds no further
fetch events. -/
theorem creds_fresh_per_task_witness :
    ∃ rest, task0Trace = credFetchEvents ++ rest
      ∧ ∀ ev ∈ rest, isCredFetch ev = false :=
  (creds_fresh_per_task testBuilder testId oneLambdaBuilds okEnv).2 task0Trace (by decide)

end AwsBasics
